import Mathlib

/-!
Shallow embedding of the core of `lutron.py` (osterwood/lutron_caseta):

* the device model (`Device.__bool__` / `Device.__str__`, lines 51-57, and the
  `PicoButton` button utilities, lines 139-214),
* the MQTT command resolver (`Caseta._get_command`, lines 397-422, and
  `Caseta._device_id_from_name`, lines 337-349),
* the per-button double-click / long-press state machine
  (`PicoButton.timing` / `PicoButton.long_press`, lines 216-246).

Conventions used throughout:

* Python runtime values flowing through the resolver are modelled by `PyVal`;
  Python exceptions by `PyErr`, and fallible code returns `Except PyErr _`.
* An MQTT topic is modelled as its list of slash-separated segments, i.e. the
  result of `msg.topic.split('/')` in the source.
* The opaque `Smartbridge` client is out of scope per the spec; where the code
  consults it (`self.parent.bridge.is_on(...)` in `Device.__bool__`) the bridge
  answer is an oracle parameter `String → Bool` keyed by device id.
* Event-loop time (`self.loop.time()`, `call_later` delays) is modelled by `ℚ`.
-/

namespace Lutron

/-- Python exceptions that the embedded code can raise. -/
inductive PyErr where
  | keyError
  | typeError
  | indexError
  | attributeError
deriving DecidableEq

/-- Python runtime values that appear in resolver arguments. `pyBridge` stands
for the `Smartbridge` handle object that `_get_command` may prepend. -/
inductive PyVal where
  | pyNone : PyVal
  | pyBool : Bool → PyVal
  | pyInt : Int → PyVal
  | pyStr : String → PyVal
  | pyList : List PyVal → PyVal
  | pyBridge : PyVal

/-- `a is None` test used by the comprehension filter in line 412. -/
def PyVal.isNone : PyVal → Bool
  | .pyNone => true
  | _ => false

mutual

/-- Python `str(a)` for the values above (scalars exactly as CPython prints
them; the bracketed list form is structural). Only used for the
`activate_scene` stringification in line 412; no theorem depends on the exact
string produced here. -/
def pyStrOf : PyVal → String
  | .pyNone => "None"
  | .pyBool b => if b then "True" else "False"
  | .pyInt n => toString n
  | .pyStr s => s
  | .pyList l => "[" ++ pyStrOfList l ++ "]"
  | .pyBridge => "Smartbridge"

/-- Comma-joined rendering of a Python list body, for `pyStrOf`. -/
def pyStrOfList : List PyVal → String
  | [] => ""
  | [a] => pyStrOf a
  | a :: b :: rest => pyStrOf a ++ ", " ++ pyStrOfList (b :: rest)

end

/-- Python negative indexing `l[-i]` on a list of strings: defined exactly when
`1 ≤ i ≤ len(l)`, otherwise the access raises `IndexError` (modelled by
`none`). -/
def pyNegIdx (l : List String) (i : Nat) : Option String :=
  if i ≤ l.length ∧ 0 < i then l.get? (l.length - i) else none

/-- ASCII uppercase of a string, Python `s.upper()` for the label alphabet that
appears in the button tables. -/
def pyToUpper (s : String) : String := ⟨s.data.map Char.toUpper⟩

/-- Python `s.isdigit()`: nonempty and all digit characters. -/
def pyIsDigit (s : String) : Bool := !s.data.isEmpty && s.data.all Char.isDigit

/-- Python `int(s)` on a digit string. -/
def strToNat (s : String) : Nat := s.data.foldl (fun n c => n * 10 + (c.toNat - 48)) 0

/-! ## Device model (`Device`, lines 36-93)

A registered device wrapper.  `parent` records whether the wrapper was built
with a parent (`Caseta` registers every wrapper with `parent=self`, lines
318-333; a bare `Device(device)` has `parent=None`).  `current_state` is
`self.device.get('current_state')`, which is absent (`None`) when the bridge
dict lacks the key. -/
structure Device where
  name : String
  device_id : String
  parent : Bool
  current_state : Option Int

/-- `Device.__bool__` (lines 51-54): with a parent it returns
`self.parent.bridge.is_on(self.device_id)` (the opaque bridge client's answer,
here the oracle); otherwise `self.current_state > 0`, which raises `TypeError`
when `current_state` is `None`. -/
def Device.toBool (oracle : String → Bool) (d : Device) : Except PyErr Bool :=
  if d.parent then .ok (oracle d.device_id)
  else
    match d.current_state with
    | some v => .ok (decide (0 < v))
    | none => .error .typeError

/-- `Device.__str__` (lines 56-57): `'ON' if bool(self) else 'OFF'`. -/
def Device.toStr (oracle : String → Bool) (d : Device) : Except PyErr String :=
  (d.toBool oracle).map (fun b => if b then "ON" else "OFF")

/-! ## PicoButton naming and matching (lines 139-214) -/

/-- The static `PicoButton.picobuttons` table (lines 144-152): layout name and
button ordinal to label.  `__init__` (lines 162-164) inserts an empty mapping
for unknown layout names, so an unknown `ty` simply yields no label here. -/
def picoLabel (ty : String) (n : Int) : Option String :=
  match ty with
  | "Pico1Button" =>
      match n with | 0 => some "Button" | _ => none
  | "Pico2Button" =>
      match n with | 0 => some "On" | 1 => some "Off" | _ => none
  | "Pico2ButtonRaiseLower" =>
      match n with
      | 0 => some "On" | 1 => some "Off" | 2 => some "Raise" | 3 => some "Lower"
      | _ => none
  | "Pico3Button" =>
      match n with | 0 => some "On" | 1 => some "Fav" | 2 => some "Off" | _ => none
  | "Pico3ButtonRaiseLower" =>
      match n with
      | 0 => some "On" | 1 => some "Fav" | 2 => some "Off" | 3 => some "Raise"
      | 4 => some "Lower"
      | _ => none
  | "Pico4Button" =>
      match n with
      | 0 => some "1" | 1 => some "2" | 2 => some "3" | 3 => some "4"
      | _ => none
  | "Pico4ButtonScene" =>
      match n with
      | 0 => some "On" | 1 => some "Off" | 2 => some "Preset 1" | 3 => some "Preset 2"
      | _ => none
  | "Pico4Button2Group" =>
      match n with
      | 0 => some "Group 1 On" | 1 => some "Group 1 Off 2" | 2 => some "Group 2 On"
      | 3 => some "Group 2 Off"
      | _ => none
  | "FourGroupRemote" =>
      match n with
      | 0 => some "Group 1 On" | 1 => some "Group 2 On 2" | 2 => some "Group 3 On"
      | 3 => some "Group 4 On"
      | _ => none
  | _ => none

/-- One registered pico-button wrapper: its addressing name, its layout name
(`self.type`) and its ordinal (`self.button_number`). -/
structure PicoButton where
  name : String
  ty : String
  button_number : Int

/-- `PicoButton.button_name` (lines 186-188):
`self.picobuttons[self.type].get(self.button_number, str(self.button_number))`. -/
def PicoButton.button_name (b : PicoButton) : String :=
  (picoLabel b.ty b.button_number).getD (toString b.button_number)

/-- `PicoButton.button_number_from_name` (lines 198-208).  `None` yields the
Python value `False`; an `int` (which includes Python booleans) is returned
unchanged; a digit string is converted with `int(...)`; any other string is a
case-insensitive label comparison yielding the ordinal or `None`.  A value with
no `.isdigit` attribute (e.g. a list) raises `AttributeError`. -/
def PicoButton.button_number_from_name (b : PicoButton) (bn : PyVal) : Except PyErr PyVal :=
  match bn with
  | .pyNone => .ok (.pyBool false)
  | .pyBool v => .ok (.pyBool v)
  | .pyInt n => .ok (.pyInt n)
  | .pyStr s =>
      if pyIsDigit s then .ok (.pyInt (strToNat s))
      else .ok (if pyToUpper b.button_name == pyToUpper s then .pyInt b.button_number
                else .pyNone)
  | _ => .error .attributeError

/-- Python `==` between the integer `button_number` and the result of
`button_number_from_name`: `int == bool` compares numerically
(`0 == False` is `True`), `int == None` and `int == str` are `False`. -/
def pyEqInt (m : Int) : PyVal → Bool
  | .pyInt n => m == n
  | .pyBool b => m == (if b then 1 else 0)
  | _ => false

/-- `PicoButton.match` (lines 210-214):
`self.button_number == self.button_number_from_name(button_number)`. -/
def PicoButton.matchButton (b : PicoButton) (bn : PyVal) : Except PyErr Bool :=
  (b.button_number_from_name bn).map (pyEqInt b.button_number)

/-! ## Command resolver (`Caseta._get_command`, lines 397-422) -/

/-- The resolver's registry state: the service name (`self._name`), the static
dispatch table mapping each command to its callable's declared parameter count
(`len(signature(self._method_dict[command]).parameters)`, line 409), the set of
commands that belong to the opaque bridge client (`self.bridge_methods`, line
266), and the two subscriber registries (`self.bridge._button_subscribers` and
`self.bridge._subscribers`) scanned by `_device_id_from_name`. -/
structure Env where
  name : String
  methodDict : List (String × Nat)
  bridgeMethods : List String
  buttonSubscribers : List (String × PicoButton)
  subscribers : List (String × Device)

/-- Dispatch-table lookup returning the callable's declared parameter count. -/
def lookupArity (d : List (String × Nat)) (c : String) : Option Nat :=
  (d.find? (fun p => p.1 == c)).map (fun p => p.2)

/-- The button-registry scan of `_device_id_from_name` (lines 339-342): first
registered button whose name equals `dn` and whose `match(button_number)` is
true.  The name test short-circuits, so `match` only runs on name-equal
entries. -/
def findButtonId (bs : List (String × PicoButton)) (dn : String) (bn : PyVal) :
    Except PyErr (Option String) :=
  match bs with
  | [] => .ok none
  | (id, b) :: rest =>
      if dn == b.name then do
        let m ← b.matchButton bn
        if m then pure (some id) else findButtonId rest dn bn
      else findButtonId rest dn bn

/-- `Caseta._device_id_from_name` (lines 337-349): with a truthy name, scan the
button registry (name + designator match), then the device registry (name
match); no match logs a warning and yields `(None, False)`. -/
def device_id_from_name (env : Env) (device_name : Option String) (bn : PyVal) :
    Except PyErr (Option String × Bool) :=
  match device_name with
  | some dn =>
      if dn == "" then .ok (none, false)
      else do
        match ← findButtonId env.buttonSubscribers dn bn with
        | some id => pure (some id, true)
        | none =>
            match env.subscribers.find? (fun p => dn == p.2.name) with
            | some (id, _) => pure (some id, false)
            | none => pure (none, false)
  | none => .ok (none, false)

/-- The call `self._device_id_from_name(device_name, *args)` in line 411: the
method accepts one positional `device_name` plus an optional `button_number`,
so splatting zero arguments passes the default `None`, one argument passes it
as the designator, and two or more raise `TypeError` at the call. -/
def device_id_from_name_call (env : Env) (device_name : Option String)
    (args : List PyVal) : Except PyErr (Option String × Bool) :=
  match args with
  | [] => device_id_from_name env device_name .pyNone
  | [a] => device_id_from_name env device_name a
  | _ => .error .typeError

/-- The target-name extraction of `_get_command` (lines 404-406):
`device_name = topic.split('/')[-2]`, replaced by `[-1]` when it equals
`self._name`, and treated as absent when it equals the command. -/
def deviceNameOf (segs : List String) (name command : String) :
    Except PyErr (Option String) :=
  match pyNegIdx segs 2 with
  | none => .error .indexError
  | some dn1 =>
      match (if dn1 == name then pyNegIdx segs 1 else some dn1) with
      | none => .error .indexError
      | some dn2 => .ok (if dn2 == command then none else some dn2)

/-- `args = [args] if not isinstance(args, list) else args` (line 408). -/
def wrapArgs (args0 : PyVal) : List PyVal :=
  match args0 with
  | .pyList l => l
  | v => [v]

/-- `nparams = len(signature(self._method_dict[command]).parameters) if command
else len(args)` (line 409): a truthy command name is looked up in the dispatch
table, raising `KeyError` when absent; a falsy one uses the argument count. -/
def nparamsOf (env : Env) (command : String) (args1 : List PyVal) :
    Except PyErr Nat :=
  if command ≠ "" then
    match lookupArity env.methodDict command with
    | some n => .ok n
    | none => .error .keyError
  else .ok args1.length

/-- `args = [str(a) if command == 'activate_scene' else a for a in args if a is
not None]` (line 412). -/
def sceneArgs (command : String) (args1 : List PyVal) : List PyVal :=
  (args1.filter (fun a => !a.isNone)).map
    (fun a => if command == "activate_scene" then PyVal.pyStr (pyStrOf a) else a)

/-- Lines 413-417: a truthy resolved device id replaces the arguments entirely
for a button, or is prepended otherwise. -/
def insertDeviceId (device_id : Option String) (is_button : Bool)
    (args2 : List PyVal) : List PyVal :=
  match device_id with
  | some id =>
      if id ≠ "" then
        (if is_button then [PyVal.pyStr id] else PyVal.pyStr id :: args2)
      else args2
  | none => args2

/-- Lines 412-419: the fully assembled argument list before truncation — the
filtered/stringified arguments, the device-id replacement/insertion, and the
bridge handle prepended for bridge-client commands (lines 410, 418-419). -/
def assembleArgs (env : Env) (command : String) (device_id : Option String)
    (is_button : Bool) (args1 : List PyVal) : List PyVal :=
  let args3 := insertDeviceId device_id is_button (sceneArgs command args1)
  if env.bridgeMethods.contains command then PyVal.pyBridge :: args3 else args3

/-- The body of `Caseta._get_command` (lines 403-419) up to, but not
including, the final truncation `args = args[:nparams]` of line 420: it
returns the command, the fully assembled argument list, and the arity bound
`nparams`.  The `(command, args)` pair produced by `super()._get_command(msg)`
is taken as input (`mqtt.py` is not part of the embedded source); `args0` is
the decoded payload before the `[args]`-wrapping of line 408. -/
def get_command_core (env : Env) (segs : List String) (command : String)
    (args0 : PyVal) : Except PyErr (String × List PyVal × Nat) :=
  match deviceNameOf segs env.name command with
  | .error e => .error e
  | .ok device_name =>
      match nparamsOf env command (wrapArgs args0) with
      | .error e => .error e
      | .ok nparams =>
          match device_id_from_name_call env device_name (wrapArgs args0) with
          | .error e => .error e
          | .ok (device_id, is_button) =>
              .ok (command,
                   assembleArgs env command device_id is_button (wrapArgs args0),
                   nparams)

/-- `Caseta._get_command` (lines 397-422): the assembled arguments truncated to
the declared parameter count (`args[:nparams]`, line 420). -/
def get_command (env : Env) (segs : List String) (command : String)
    (args0 : PyVal) : Except PyErr (String × List PyVal) :=
  (get_command_core env segs command args0).map (fun r => (r.1, r.2.1.take r.2.2))

/-- `_get_command` with the (read-only) registry state threaded through
explicitly, to state that a resolution leaves the registries untouched. -/
def get_commandS (env : Env) (segs : List String) (command : String)
    (args0 : PyVal) : Except PyErr (Env × String × List PyVal) :=
  (get_command_core env segs command args0).map (fun r => (env, r.1, r.2.1.take r.2.2))

/-- Observable outcome of handling one inbound message: outbound calls made,
warnings logged, and whether an unhandled exception escaped. -/
structure HandlerOutcome where
  outbound : List (String × List PyVal)
  warnings : Nat
  crashed : Bool

/-- Modelled from the spec: the MQTT base class (file `mqtt.py`, which is not
part of the sources under verification) feeds each inbound message through
`_get_command` and dispatches the result; per the spec's error taxonomy, a
failed dispatch-table lookup (`UnknownCommand`, concretely the `KeyError` of
line 409) is surfaced as a logged warning and the message is silently dropped
with no crash.  Other resolver exceptions are not described by the spec and are
conservatively treated as crashes. -/
def handleMessage (env : Env) (segs : List String) (command : String)
    (args0 : PyVal) : HandlerOutcome :=
  match get_command env segs command args0 with
  | .ok (c, a) => { outbound := [(c, a)], warnings := 0, crashed := false }
  | .error .keyError => { outbound := [], warnings := 1, crashed := false }
  | .error _ => { outbound := [], warnings := 0, crashed := true }

/-- The target-name rule exactly as the spec words it: take the second-to-last
segment; if it equals the service's own root name, use the last segment
instead; if the resulting value equals the command name itself, treat the
target as absent. -/
def specTargetName (segs : List String) (name command : String) : Option String :=
  let d1 := segs.getD (segs.length - 2) ""
  let d := if d1 = name then segs.getD (segs.length - 1) "" else d1
  if d = command then none else some d

/-! ## Button timing state machine (`PicoButton.__call__` / `timing` /
`long_press`, lines 155-246)

One `PicoButton`'s press-derived event machine.  The event loop's timer queue
is modelled explicitly: `call_later` allocates a fresh timer id and records its
deadline; `cancel()` and a firing mark the stored record, mirroring an
`asyncio.TimerHandle` (a cancelled or fired handle still exists). -/

/-- `self.double_click_time = 0.5` (line 158). -/
def double_click_time : ℚ := 1/2

/-- `self.long_press_time = 1` (line 159). -/
def long_press_time : ℚ := 1

/-- One scheduled `asyncio.TimerHandle`: its absolute deadline, whether
`cancel()` has been called on it, and whether its callback has run. -/
structure TimerRec where
  deadline : ℚ
  cancelled : Bool
  fired : Bool

/-- A publish made by the button: the raw state publish of `__call__`
(line 172), the `.../double` publish (line 222) and the `.../long` publish
(line 245), each with the loop time and the `str(self)` payload
(`true` = "ON", i.e. currently pressed). -/
inductive Pub where
  | state : ℚ → Bool → Pub
  | double : ℚ → Bool → Pub
  | long : ℚ → Bool → Pub

/-- The per-button machine state: `self.start` (press-start timestamp, line
160), `self._long_press_task` (line 161) as an optional timer id, the event
loop's timer store, a fresh-id counter, `current_state == 'Press'` as
`pressed`, and the publishes made so far (most recent first). -/
structure BState where
  start : ℚ
  task : Option Nat
  timers : List (Nat × TimerRec)
  nextId : Nat
  pressed : Bool
  pubs : List Pub

/-- Read a timer handle's record from the store. -/
def lookupTimer (s : BState) (id : Nat) : Option TimerRec :=
  (s.timers.find? (fun p => p.1 == id)).map (fun p => p.2)

/-- Update the record stored for timer id `id`. -/
def updTimer (g : TimerRec → TimerRec) (id : Nat) (l : List (Nat × TimerRec)) :
    List (Nat × TimerRec) :=
  l.map (fun p => if p.1 == id then (p.1, g p.2) else p)

/-- `handle.cancel()`: mark the stored record cancelled (idempotent; a no-op on
a handle that already fired apart from the flag). -/
def cancelTimer (s : BState) (id : Nat) : BState :=
  { s with timers := updTimer (fun r => { r with cancelled := true }) id s.timers }

/-- The scheduler consuming a handle's callback: mark the record fired. -/
def markFired (s : BState) (id : Nat) : BState :=
  { s with timers := updTimer (fun r => { r with fired := true }) id s.timers }

/-- `self.loop.call_later(self.long_press_time, self.long_press)` (line 239):
allocate a fresh timer due at `now + long_press_time`. -/
def callLater (s : BState) (now : ℚ) : BState × Nat :=
  ({ s with
      timers := (s.nextId, ⟨now + long_press_time, false, false⟩) :: s.timers,
      nextId := s.nextId + 1 },
   s.nextId)

/-- Append a `.../long` publish with payload `str(self)`. -/
def publishLong (s : BState) (t : ℚ) : BState :=
  { s with pubs := Pub.long t s.pressed :: s.pubs }

/-- `PicoButton.long_press` (lines 226-246), returning the updated state and
the Python return value (a new timer handle, or `None`).  Pressed with no
task: arm a timer.  Pressed with a task (the post-fire call, or a repeated
press): fall through to the `.../long` publish and cancel.  Released with no
task: nothing.  Released with an uncancelled task: cancel it.  Released with a
cancelled task (the timer fired earlier and cancelled itself): fall through to
the `.../long` publish and cancel. -/
def long_press (now : ℚ) (s : BState) : BState × Option Nat :=
  if s.pressed then
    match s.task with
    | none =>
        let r := callLater s now
        (r.1, some r.2)
    | some tid =>
        let s1 := publishLong s now
        (cancelTimer s1 tid, none)
  else
    match s.task with
    | none => (s, none)
    | some tid =>
        if !(((lookupTimer s tid).map (fun r => r.cancelled)).getD false) then
          (cancelTimer s tid, none)
        else
          let s1 := publishLong s now
          (cancelTimer s1 tid, none)

/-- `PicoButton.timing` (lines 216-224): on a press, publish `.../double` when
the elapsed time since the previous press start is within the double-click
window (boundary inclusive) and reset `self.start`; then
`self._long_press_task = self.long_press()`. -/
def timing (now : ℚ) (s : BState) : BState :=
  let s1 :=
    if s.pressed then
      let s2 :=
        if now - s.start ≤ double_click_time then
          { s with pubs := Pub.double now s.pressed :: s.pubs }
        else s
      { s2 with start := now }
    else s
  let r := long_press now s1
  { r.1 with task := r.2 }

/-- `PicoButton.__call__` (lines 166-173) for a subscriber notification
carrying the raw press state: update `current_state`, publish the state, then
run `timing`. -/
def notify (now : ℚ) (msg : Bool) (s : BState) : BState :=
  let s1 := { s with pressed := msg }
  let s2 := { s1 with pubs := Pub.state now s1.pressed :: s1.pubs }
  timing now s2

/-- A timer firing: the scheduler consumes the handle and re-invokes
`self.long_press` (line 239); the callback's return value is discarded, so
`self._long_press_task` is left unchanged. -/
def fire (id : Nat) (now : ℚ) (s : BState) : BState :=
  (long_press now (markFired s id)).1

/-- The cooperative scheduler advancing to time `t`: run the pending timer
whose deadline has passed, if any (the machine keeps at most one timer
pending, see `TimerInv`). -/
def fireDue (t : ℚ) (s : BState) : BState :=
  match s.timers.find?
      (fun p => !p.2.cancelled && !p.2.fired && decide (p.2.deadline ≤ t)) with
  | some (id, r) => fire id r.deadline s
  | none => s

/-- Deliver one external press/release notification at its time: any due timer
fires first, then the notification is processed. -/
def processEvent (s : BState) (e : ℚ × Bool) : BState :=
  notify e.1 e.2 (fireDue e.1 s)

/-- Run a timed press/release trace through the machine. -/
def runTrace (s : BState) (es : List (ℚ × Bool)) : BState :=
  es.foldl processEvent s

/-- Times of the `.../double` publishes in a publish list, most recent first. -/
def doublesOf : List Pub → List ℚ :=
  List.filterMap (fun p => match p with | Pub.double t _ => some t | _ => none)

/-- Times of the `.../double` publishes made so far. -/
def doubleTimes (s : BState) : List ℚ := doublesOf s.pubs

/-- Times of the long-press events proper in a publish list: `.../long`
publishes with payload "ON" (emitted while pressed, i.e. at a timer firing),
most recent first.  A `.../long` publish with payload "OFF" is the
long-press-release event, not a long-press event. -/
def longOnOf : List Pub → List ℚ :=
  List.filterMap
    (fun p => match p with | Pub.long t b => if b then some t else none | _ => none)

/-- Times of the long-press events emitted so far. -/
def longOnTimes (s : BState) : List ℚ := longOnOf s.pubs

/-- Number of pending (armed, not yet fired, not cancelled) timers in the
event loop's store. -/
def pendingCount (s : BState) : Nat :=
  (s.timers.filter (fun p => !p.2.cancelled && !p.2.fired)).length

/-- Invariant on the timer components: every pending timer in the store is the
one held in `self._long_press_task`, timer ids in the store are below the
fresh-id counter, and the store has no duplicate ids. -/
def TInv (task : Option Nat) (timers : List (Nat × TimerRec)) (nextId : Nat) : Prop :=
  (∀ p ∈ timers, p.2.cancelled = false → p.2.fired = false → task = some p.1)
  ∧ (∀ p ∈ timers, p.1 < nextId)
  ∧ (timers.map Prod.fst).Nodup

/-- The machine's timer invariant. -/
def TimerInv (s : BState) : Prop := TInv s.task s.timers s.nextId

/-- A quiescent button: no task handle held, no pending timer, and ids in the
store below the counter.  This holds initially (`self._long_press_task = None`,
line 161, with an empty timer queue) and after every processed release. -/
def Quiescent (s : BState) : Prop :=
  s.task = none
  ∧ (∀ p ∈ s.timers, p.2.cancelled = true ∨ p.2.fired = true)
  ∧ (∀ p ∈ s.timers, p.1 < s.nextId)

/-! ## Shared helper lemmas -/

/-- With at least two topic segments, the target-name extraction cannot raise
and computes the spec's selection rule. -/
theorem deviceNameOf_eq_ok (segs : List String) (name command : String)
    (h : 2 ≤ segs.length) :
    deviceNameOf segs name command = .ok (specTargetName segs name command) := by
  have h2 : segs.length - 2 < segs.length := by omega
  have h1 : segs.length - 1 < segs.length := by omega
  have e2 : segs.get? (segs.length - 2) = some (segs.get ⟨segs.length - 2, h2⟩) :=
    List.get?_eq_get h2
  have e1 : segs.get? (segs.length - 1) = some (segs.get ⟨segs.length - 1, h1⟩) :=
    List.get?_eq_get h1
  have g2 : segs.getD (segs.length - 2) "" = segs.get ⟨segs.length - 2, h2⟩ := by
    rw [List.getD_eq_getElem?_getD, ← List.get?_eq_getElem?, e2, Option.getD_some]
  have g1 : segs.getD (segs.length - 1) "" = segs.get ⟨segs.length - 1, h1⟩ := by
    rw [List.getD_eq_getElem?_getD, ← List.get?_eq_getElem?, e1, Option.getD_some]
  unfold deviceNameOf specTargetName pyNegIdx
  rw [if_pos ⟨h, by omega⟩, e2, if_pos ⟨by omega, by omega⟩, e1, g2, g1]
  by_cases hn : segs[segs.length - 2] = name <;> simp [hn]

/-- The button-registry scan finds nothing when no registered button carries
the looked-up name. -/
theorem findButtonId_of_no_name (bs : List (String × PicoButton)) (dn : String)
    (bn : PyVal) (h : ∀ p ∈ bs, p.2.name ≠ dn) :
    findButtonId bs dn bn = .ok none := by
  induction bs with
  | nil => rfl
  | cons q rest ih =>
      have hq : q.2.name ≠ dn := h q (List.mem_cons_self q rest)
      have hne : (dn == q.2.name) = false := by
        simp only [beq_eq_false_iff_ne, ne_eq]
        exact fun e => hq e.symm
      obtain ⟨id, b⟩ := q
      simp only [findButtonId, hne, Bool.false_eq_true, if_false]
      exact ih (fun p hp => h p (List.mem_cons_of_mem _ hp))

/-- A successful threaded resolution returns the registry state it was given:
`_get_command` only reads the registries. -/
theorem get_commandS_env_eq (env env' : Env) (segs : List String) (command : String)
    (args0 : PyVal) (c : String) (a : List PyVal)
    (h : get_commandS env segs command args0 = .ok (env', c, a)) : env' = env := by
  unfold get_commandS at h
  cases hc : get_command_core env segs command args0 with
  | error e => rw [hc] at h; exact absurd h (by simp [Except.map])
  | ok r =>
      rw [hc] at h
      simp only [Except.map, Except.ok.injEq, Prod.mk.injEq] at h
      exact h.1.symm

@[simp] theorem doublesOf_nil : doublesOf [] = [] := rfl

@[simp] theorem doublesOf_cons_state (t : ℚ) (b : Bool) (l : List Pub) :
    doublesOf (Pub.state t b :: l) = doublesOf l := rfl

@[simp] theorem doublesOf_cons_double (t : ℚ) (b : Bool) (l : List Pub) :
    doublesOf (Pub.double t b :: l) = t :: doublesOf l := rfl

@[simp] theorem doublesOf_cons_long (t : ℚ) (b : Bool) (l : List Pub) :
    doublesOf (Pub.long t b :: l) = doublesOf l := rfl

@[simp] theorem longOnOf_nil : longOnOf [] = [] := rfl

@[simp] theorem longOnOf_cons_state (t : ℚ) (b : Bool) (l : List Pub) :
    longOnOf (Pub.state t b :: l) = longOnOf l := rfl

@[simp] theorem longOnOf_cons_double (t : ℚ) (b : Bool) (l : List Pub) :
    longOnOf (Pub.double t b :: l) = longOnOf l := rfl

@[simp] theorem longOnOf_cons_long (t : ℚ) (b : Bool) (l : List Pub) :
    longOnOf (Pub.long t b :: l) = (if b then [t] else []) ++ longOnOf l := by
  cases b <;> rfl

/-- `long_press` publishes no `.../double` event in any branch. -/
theorem doublesOf_long_press (now : ℚ) (s : BState) :
    doublesOf (long_press now s).1.pubs = doublesOf s.pubs := by
  obtain ⟨st, tk, tm, ni, pr, pb⟩ := s
  cases pr <;> cases tk <;>
    simp [long_press, callLater, publishLong, cancelTimer, updTimer] <;>
    split_ifs <;> simp

/-- `long_press` never touches the press-start timestamp. -/
theorem start_long_press (now : ℚ) (s : BState) :
    (long_press now s).1.start = s.start := by
  obtain ⟨st, tk, tm, ni, pr, pb⟩ := s
  cases pr <;> cases tk <;>
    simp [long_press, callLater, publishLong, cancelTimer, updTimer] <;>
    split_ifs <;> simp

/-- A timer firing never touches the press-start timestamp. -/
theorem fireDue_start (t : ℚ) (s : BState) : (fireDue t s).start = s.start := by
  unfold fireDue
  split
  · unfold fire
    rw [start_long_press]
    rfl
  · rfl

/-- A timer firing publishes no `.../double` event. -/
theorem fireDue_doubles (t : ℚ) (s : BState) :
    doubleTimes (fireDue t s) = doubleTimes s := by
  unfold fireDue
  split
  · unfold fire doubleTimes
    rw [doublesOf_long_press]
    rfl
  · rfl

/-- `updTimer` leaves the stored ids unchanged. -/
theorem updTimer_map_fst (g : TimerRec → TimerRec) (id : Nat)
    (l : List (Nat × TimerRec)) :
    (updTimer g id l).map Prod.fst = l.map Prod.fst := by
  unfold updTimer
  rw [List.map_map]
  refine List.map_congr_left (fun p hp => ?_)
  by_cases h : (p.1 == id) = true <;> simp [Function.comp, h]

/-- Cancelling the tracked timer leaves no pending timer, so the invariant
holds for any new task value. -/
theorem tinv_cancel (task' : Option Nat) (tid : Nat)
    (timers : List (Nat × TimerRec)) (nextId : Nat)
    (h : TInv (some tid) timers nextId) :
    TInv task' (updTimer (fun r => { r with cancelled := true }) tid timers)
      nextId := by
  refine ⟨fun p hp hc hf => ?_, fun p hp => ?_, ?_⟩
  · exfalso
    obtain ⟨q, hq, hpq⟩ := List.mem_map.mp hp
    by_cases hb : (q.1 == tid) = true
    · rw [if_pos hb] at hpq
      rw [← hpq] at hc
      simp at hc
    · rw [if_neg hb] at hpq
      subst hpq
      have := h.1 q hq hc hf
      simp only [Option.some.injEq] at this
      exact hb (by simp [this])
  · obtain ⟨q, hq, hpq⟩ := List.mem_map.mp hp
    have hlt := h.2.1 q hq
    by_cases hb : (q.1 == tid) = true
    · rw [if_pos hb] at hpq
      rw [← hpq]
      simpa using hlt
    · rw [if_neg hb] at hpq
      rw [← hpq]
      exact hlt
  · rw [updTimer_map_fst]
    exact h.2.2

/-- Marking the tracked timer fired keeps every remaining pending timer equal
to the tracked one. -/
theorem tinv_fired (tid : Nat) (timers : List (Nat × TimerRec)) (nextId : Nat)
    (h : TInv (some tid) timers nextId) :
    TInv (some tid) (updTimer (fun r => { r with fired := true }) tid timers)
      nextId := by
  refine ⟨fun p hp hc hf => ?_, fun p hp => ?_, ?_⟩
  · obtain ⟨q, hq, hpq⟩ := List.mem_map.mp hp
    by_cases hb : (q.1 == tid) = true
    · rw [if_pos hb] at hpq
      rw [← hpq] at hf
      simp at hf
    · rw [if_neg hb] at hpq
      subst hpq
      exact h.1 q hq hc hf
  · obtain ⟨q, hq, hpq⟩ := List.mem_map.mp hp
    have hlt := h.2.1 q hq
    by_cases hb : (q.1 == tid) = true
    · rw [if_pos hb] at hpq
      rw [← hpq]
      simpa using hlt
    · rw [if_neg hb] at hpq
      rw [← hpq]
      exact hlt
  · rw [updTimer_map_fst]
    exact h.2.2

/-- Arming a fresh timer from a state with no tracked task preserves the
invariant. -/
theorem tinv_arm (timers : List (Nat × TimerRec)) (nextId : Nat) (rec : TimerRec)
    (h : TInv none timers nextId) :
    TInv (some nextId) ((nextId, rec) :: timers) (nextId + 1) := by
  refine ⟨fun p hp hc hf => ?_, fun p hp => ?_, ?_⟩
  · rcases List.mem_cons.mp hp with hph | hpt
    · subst hph; rfl
    · exact absurd (h.1 p hpt hc hf) (by simp)
  · rcases List.mem_cons.mp hp with hph | hpt
    · subst hph; simp
    · exact Nat.lt_succ_of_lt (h.2.1 p hpt)
  · simp only [List.map_cons]
    refine List.nodup_cons.mpr ⟨?_, h.2.2⟩
    intro hmem
    obtain ⟨q, hq, hfst⟩ := List.mem_map.mp hmem
    have := h.2.1 q hq
    omega

/-- `self._long_press_task = self.long_press()` (line 224) preserves the timer
invariant from any state. -/
theorem timerInv_long_press_assign (now : ℚ) (s : BState) (h : TimerInv s) :
    TimerInv { (long_press now s).1 with task := (long_press now s).2 } := by
  obtain ⟨st, tk, tm, ni, pr, pb⟩ := s
  cases pr <;> cases tk
  · exact h
  · next tid =>
      simp only [long_press, publishLong, cancelTimer, lookupTimer, callLater]
      split_ifs <;> exact tinv_cancel none tid tm ni h
  · exact tinv_arm tm ni _ h
  · next tid =>
      simp only [long_press, publishLong, cancelTimer, lookupTimer, callLater]
      exact tinv_cancel none tid tm ni h

/-- Every press/release notification preserves the timer invariant. -/
theorem timerInv_notify (t : ℚ) (b : Bool) (s : BState) (h : TimerInv s) :
    TimerInv (notify t b s) := by
  obtain ⟨st, tk, tm, ni, pr, pb⟩ := s
  unfold notify timing
  cases b
  · exact timerInv_long_press_assign t _ h
  · by_cases hcond : t - st ≤ double_click_time <;>
      simp only [hcond, if_pos, if_neg] <;>
      exact timerInv_long_press_assign t _ h

/-- A due timer firing preserves the timer invariant. -/
theorem timerInv_fireDue (t : ℚ) (s : BState) (h : TimerInv s) :
    TimerInv (fireDue t s) := by
  unfold fireDue
  split
  · next id r heq =>
      have hmem : (id, r) ∈ s.timers := List.mem_of_find?_eq_some heq
      have hpred := List.find?_some heq
      simp only [Bool.and_eq_true, Bool.not_eq_true'] at hpred
      obtain ⟨⟨hc, hf⟩, hd⟩ := hpred
      have htask : s.task = some id := h.1 (id, r) hmem hc hf
      obtain ⟨st, tk, tm, ni, pr, pb⟩ := s
      simp only at htask
      subst htask
      have h1 : TInv (some id) (updTimer (fun r => { r with fired := true }) id tm)
          ni := tinv_fired id tm ni h
      unfold fire markFired long_press
      cases pr
      · simp only [publishLong, cancelTimer, lookupTimer]
        split_ifs <;> exact tinv_cancel (some id) id _ ni h1
      · simp only [publishLong, cancelTimer]
        exact tinv_cancel (some id) id _ ni h1
  · exact h

@[simp] theorem longOnOf_append (l₁ l₂ : List Pub) :
    longOnOf (l₁ ++ l₂) = longOnOf l₁ ++ longOnOf l₂ :=
  List.filterMap_append l₁ l₂ _

@[simp] theorem doublesOf_append (l₁ l₂ : List Pub) :
    doublesOf (l₁ ++ l₂) = doublesOf l₁ ++ doublesOf l₂ :=
  List.filterMap_append l₁ l₂ _

/-- `updTimer` on a store headed by the updated id. -/
theorem updTimer_cons_self (g : TimerRec → TimerRec) (id : Nat) (r : TimerRec)
    (l : List (Nat × TimerRec)) :
    updTimer g id ((id, r) :: l) = (id, g r) :: updTimer g id l := by
  simp [updTimer]

/-- Updating a timer id absent from the store is a no-op. -/
theorem updTimer_of_not_mem (g : TimerRec → TimerRec) (id : Nat) :
    ∀ l : List (Nat × TimerRec), (∀ p ∈ l, p.1 ≠ id) → updTimer g id l = l := by
  intro l
  induction l with
  | nil => intro _; rfl
  | cons a rest ih =>
      intro h
      have ha : (a.1 == id) = false := by
        simp only [beq_eq_false_iff_ne, ne_eq]
        exact h a (List.mem_cons_self a rest)
      have ht := ih (fun p hp => h p (List.mem_cons_of_mem a hp))
      simp only [updTimer, List.map_cons, ha, Bool.false_eq_true, if_false]
      simpa [updTimer] using ht

/-- A store holding only dead (cancelled or fired) timers has nothing due. -/
theorem dead_find_none (tm : List (Nat × TimerRec))
    (h : ∀ p ∈ tm, p.2.cancelled = true ∨ p.2.fired = true) (t : ℚ) :
    tm.find? (fun p => !p.2.cancelled && !p.2.fired && decide (p.2.deadline ≤ t))
      = none := by
  refine List.find?_eq_none.mpr (fun p hp => ?_)
  rcases h p hp with hc | hf
  · simp [hc]
  · simp [hf]

/-- With only dead timers in the store, the scheduler fires nothing. -/
theorem fireDue_of_dead (s : BState)
    (h : ∀ p ∈ s.timers, p.2.cancelled = true ∨ p.2.fired = true) (t : ℚ) :
    fireDue t s = s := by
  unfold fireDue
  rw [dead_find_none s.timers h t]

/-- Processing a press from a quiescent state: the double-click check against
the previous press start, the reset of `self.start`, and the arming of a fresh
long-press timer. -/
theorem press_from_quiescent (s : BState) (h : Quiescent s) (t : ℚ) :
    processEvent s (t, true) =
      { start := t, task := some s.nextId,
        timers := (s.nextId, ⟨t + long_press_time, false, false⟩) :: s.timers,
        nextId := s.nextId + 1, pressed := true,
        pubs := (if t - s.start ≤ double_click_time then [Pub.double t true] else [])
                ++ Pub.state t true :: s.pubs } := by
  obtain ⟨st, tk, tm, ni, pr, pb⟩ := s
  obtain ⟨htk, hdead, hfresh⟩ := h
  simp only at htk
  subst htk
  unfold processEvent
  rw [fireDue_of_dead _ hdead t]
  unfold notify timing long_press callLater
  by_cases hcond : t - st ≤ double_click_time <;> simp [hcond]

/-- Processing a release from a quiescent state only records the state
publish. -/
theorem release_from_quiescent (s : BState) (h : Quiescent s) (t : ℚ) :
    processEvent s (t, false)
      = { s with pressed := false, pubs := Pub.state t false :: s.pubs } := by
  obtain ⟨st, tk, tm, ni, pr, pb⟩ := s
  obtain ⟨htk, hdead, hfresh⟩ := h
  simp only at htk
  subst htk
  unfold processEvent
  rw [fireDue_of_dead _ hdead t]
  unfold notify timing long_press
  simp

/-- One full press/release cycle from a quiescent state: the long-press event
(payload "ON") is emitted, at the armed deadline, exactly when the press is
held at least the long-press window; the timer is otherwise cancelled silently.
Either way the machine returns to a quiescent state. -/
theorem press_release (s : BState) (h : Quiescent s) (t0 t1 : ℚ) :
    longOnTimes (processEvent (processEvent s (t0, true)) (t1, false))
      = (if t0 + long_press_time ≤ t1 then [t0 + long_press_time] else [])
        ++ longOnTimes s
    ∧ Quiescent (processEvent (processEvent s (t0, true)) (t1, false)) := by
  rw [press_from_quiescent s h t0]
  obtain ⟨st, tk, tm, ni, pr, pb⟩ := s
  obtain ⟨htk, hdead, hfresh⟩ := h
  have hupd : ∀ g : TimerRec → TimerRec, updTimer g ni tm = tm := fun g =>
    updTimer_of_not_mem g ni tm (fun p hp => Nat.ne_of_lt (hfresh p hp))
  by_cases hc : t0 + long_press_time ≤ t1
  · -- the timer fires at its deadline, then the release emits the
    -- long-press-release publish
    unfold processEvent fireDue
    rw [List.find?_cons_of_pos _ (by simp [hc])]
    simp [fire, markFired, cancelTimer, publishLong, notify, timing, long_press,
      lookupTimer, updTimer_cons_self, hupd, List.find?_cons, longOnTimes,
      Quiescent, hc]
    refine ⟨?_, fun a b hm => hdead (a, b) hm,
      fun a b hm => Nat.lt_succ_of_lt (hfresh (a, b) hm)⟩
    by_cases hdc : t0 ≤ double_click_time + st <;> simp [hdc]
  · unfold processEvent fireDue
    rw [List.find?_cons_of_neg _ (by simp [hc]), dead_find_none tm hdead t1]
    simp [notify, timing, long_press, lookupTimer, cancelTimer, publishLong,
      updTimer_cons_self, hupd, List.find?_cons, longOnTimes, Quiescent, hc]
    refine ⟨?_, fun a b hm => hdead (a, b) hm,
      fun a b hm => Nat.lt_succ_of_lt (hfresh (a, b) hm)⟩
    by_cases hdc : t0 ≤ double_click_time + st <;> simp [hdc]

/-- Any number of repeated release notifications on a quiescent button only
records state publishes: no long-press event is emitted and the machine stays
quiescent. -/
theorem run_releases (rs : List ℚ) :
    ∀ s : BState, Quiescent s →
      longOnTimes (runTrace s (rs.map (fun r => (r, false)))) = longOnTimes s
      ∧ Quiescent (runTrace s (rs.map (fun r => (r, false)))) := by
  induction rs with
  | nil => exact fun s h => ⟨rfl, h⟩
  | cons r rest ih =>
      intro s h
      simp only [List.map_cons, runTrace, List.foldl_cons]
      rw [release_from_quiescent s h r]
      have hq : Quiescent
          { s with pressed := false, pubs := Pub.state r false :: s.pubs } :=
        ⟨h.1, h.2.1, h.2.2⟩
      have hrest := ih _ hq
      simp only [runTrace] at hrest
      refine ⟨?_, hrest.2⟩
      rw [hrest.1]
      simp [longOnTimes]

/-- A nodup list whose elements are all equal has at most one element. -/
theorem length_le_one_of_nodup_const {l : List Nat} {c : Nat} (hn : l.Nodup)
    (ha : ∀ a ∈ l, a = c) : l.length ≤ 1 := by
  match l with
  | [] => simp
  | [a] => simp
  | a :: b :: rest =>
      exfalso
      have ha' : a = c := ha a (by simp)
      have hb' : b = c := ha b (by simp)
      have : a ∉ b :: rest := (List.nodup_cons.mp hn).1
      exact this (by simp [ha', hb'])

/-- Under the invariant, at most one timer in the store is pending. -/
theorem pendingCount_le_one (s : BState) (h : TimerInv s) : pendingCount s ≤ 1 := by
  unfold pendingCount
  cases htk : s.task with
  | none =>
      have : s.timers.filter (fun p => !p.2.cancelled && !p.2.fired) = [] := by
        refine List.filter_eq_nil_iff.mpr (fun p hp => ?_)
        simp only [Bool.and_eq_true, Bool.not_eq_true', not_and]
        intro hc hf
        have := h.1 p hp hc hf
        rw [htk] at this
        exact absurd this (by simp)
      rw [this]
      simp
  | some tid =>
      have hsub : (s.timers.filter (fun p => !p.2.cancelled && !p.2.fired)).Sublist
          s.timers := List.filter_sublist s.timers
      have hnod : ((s.timers.filter
          (fun p => !p.2.cancelled && !p.2.fired)).map Prod.fst).Nodup :=
        h.2.2.sublist (hsub.map Prod.fst)
      have hall : ∀ a ∈ (s.timers.filter
          (fun p => !p.2.cancelled && !p.2.fired)).map Prod.fst, a = tid := by
        intro a hamem
        obtain ⟨q, hq, hfst⟩ := List.mem_map.mp hamem
        have hq' := List.mem_of_mem_filter hq
        have hqp := List.of_mem_filter hq
        simp only [Bool.and_eq_true, Bool.not_eq_true'] at hqp
        have := h.1 q hq' hqp.1 hqp.2
        rw [htk] at this
        simp only [Option.some.injEq] at this
        omega
      have := length_le_one_of_nodup_const hnod hall
      simpa using this

/-! ## Claim theorems -/

/-- C8: for every inbound topic with at least two segments, the target device
name computed by `_get_command` (lines 404-406) is the topic's second-to-last
segment, unless that segment equals the service's own root name, in which case
it is the last segment; and if the resulting value equals the command name
itself the target is treated as absent.  `specTargetName` is that rule stated
as in the spec. -/
theorem c8_theorem (segs : List String) (name command : String)
    (h : 2 ≤ segs.length) :
    deviceNameOf segs name command = .ok (specTargetName segs name command) :=
  deviceNameOf_eq_ok segs name command h

/-- Witness for C8 at the spec's scenario topic `status/lutron/caseta`. -/
theorem c8_witness :
    2 ≤ (["status", "lutron", "caseta"] : List String).length
    ∧ deviceNameOf ["status", "lutron", "caseta"] "caseta" "status"
        = .ok (specTargetName ["status", "lutron", "caseta"] "caseta" "status") :=
  ⟨by decide, c8_theorem ["status", "lutron", "caseta"] "caseta" "status" (by decide)⟩

/-- C10: addressing a button device with no designator (`match(None)`, lines
198-214) succeeds exactly for ordinal 0: `button_number_from_name(None)`
returns the Python value `False` and `self.button_number == False` holds iff
the ordinal is numerically 0, so a designator-less command resolves to button
ordinal 0 and never to a nonzero ordinal. -/
theorem c10_theorem (b : PicoButton) :
    b.matchButton PyVal.pyNone = .ok (decide (b.button_number = 0)) := by
  simp only [PicoButton.matchButton, PicoButton.button_number_from_name, pyEqInt,
    Except.map, Except.ok.injEq]
  by_cases h : b.button_number = 0 <;> simp [h]

/-- C1, as stated, is false: a registered device (one with a parent) answers
`is_on()` through the opaque bridge client (`self.parent.bridge.is_on`,
line 53), not as a function of `current_state`: with a bridge oracle answering
`false` for a device whose `current_state` is 5, `is_on()` is `false` although
`current_state > 0`. -/
theorem c1_counterexample :
    ¬ (∀ (oracle : String → Bool) (d : Device) (v : Int),
        d.current_state = some v →
          Device.toBool oracle d = .ok (decide (0 < v))) := by
  intro h
  have := h (fun _ => false)
    { name := "kitchen_lights", device_id := "3", parent := true,
      current_state := some 5 } 5 rfl
  simp [Device.toBool] at this

/-- C1 amended: a non-button device without a parent computes `is_on()` as
`current_state > 0`; a registered device (with a parent) delegates `is_on()`
to the bridge client for its device id; and in every case
`to_display_string()` is "ON" iff `is_on()` is true. -/
theorem c1_theorem (oracle : String → Bool) (d : Device) :
    (d.parent = true → Device.toBool oracle d = .ok (oracle d.device_id))
    ∧ (∀ v : Int, d.parent = false → d.current_state = some v →
        Device.toBool oracle d = .ok (decide (0 < v)))
    ∧ (∀ b : Bool, Device.toBool oracle d = .ok b →
        Device.toStr oracle d = .ok (if b then "ON" else "OFF")) := by
  refine ⟨fun hp => ?_, fun v hp hv => ?_, fun b hb => ?_⟩
  · simp [Device.toBool, hp]
  · simp [Device.toBool, hp, hv]
  · simp [Device.toStr, hb, Except.map]

/-- Witness for C1 (amended) on a parentless dimmer at level 3 and a
registered device handled by the bridge oracle. -/
theorem c1_witness :
    Device.toBool (fun _ => true)
        { name := "lamp", device_id := "7", parent := false,
          current_state := some 3 } = .ok true
    ∧ Device.toStr (fun _ => true)
        { name := "lamp", device_id := "7", parent := false,
          current_state := some 3 } = .ok "ON"
    ∧ Device.toBool (fun _ => true)
        { name := "fan", device_id := "8", parent := true,
          current_state := some 0 } = .ok true := by
  have h1 := c1_theorem (fun _ => true)
    { name := "lamp", device_id := "7", parent := false, current_state := some 3 }
  have h2 := c1_theorem (fun _ => true)
    { name := "fan", device_id := "8", parent := true, current_state := some 0 }
  have hb := h1.2.1 3 rfl rfl
  refine ⟨by simpa using hb, ?_, by simpa using h2.1 rfl⟩
  have := h1.2.2 true (by simpa using hb)
  simpa using this

/-- C2: a message whose command name is absent from the static dispatch table
fails at the table lookup of line 409 (the spec's `UnknownCommand`, concretely
a `KeyError`) before any outbound step, and the handler surfaces it as one
logged warning, drops the message, makes no outbound call, and does not
crash. -/
theorem c2_theorem (env : Env) (segs : List String) (command : String)
    (args0 : PyVal) (hs : 2 ≤ segs.length) (hc : command ≠ "")
    (hl : lookupArity env.methodDict command = none) :
    get_command env segs command args0 = .error .keyError
    ∧ handleMessage env segs command args0
        = { outbound := [], warnings := 1, crashed := false } := by
  have hdn := deviceNameOf_eq_ok segs env.name command hs
  have hnp : nparamsOf env command (wrapArgs args0) = .error .keyError := by
    unfold nparamsOf
    rw [if_pos hc, hl]
  have hcore : get_command_core env segs command args0 = .error .keyError := by
    unfold get_command_core
    rw [hdn, hnp]
  exact ⟨by simp [get_command, hcore, Except.map],
         by simp [handleMessage, get_command, hcore, Except.map]⟩

/-- Witness for C2: the unknown command `frobnicate` is dropped with one
warning and no outbound call. -/
theorem c2_witness :
    get_command
        { name := "caseta", methodDict := [("set_value", 4), ("status", 1)],
          bridgeMethods := [], buttonSubscribers := [], subscribers := [] }
        ["frobnicate", "lutron", "x"] "frobnicate" (PyVal.pyStr "1")
      = .error .keyError
    ∧ handleMessage
        { name := "caseta", methodDict := [("set_value", 4), ("status", 1)],
          bridgeMethods := [], buttonSubscribers := [], subscribers := [] }
        ["frobnicate", "lutron", "x"] "frobnicate" (PyVal.pyStr "1")
      = { outbound := [], warnings := 1, crashed := false } :=
  c2_theorem _ ["frobnicate", "lutron", "x"] "frobnicate" (PyVal.pyStr "1")
    (by decide) (by decide) rfl

/-- C3, as stated, is false: `_get_command` splats the whole decoded argument
list into `_device_id_from_name` (line 411), whose signature accepts at most
one designator, so a message carrying two raw arguments makes resolution raise
`TypeError` instead of proceeding. -/
theorem c3_counterexample :
    get_command
        { name := "caseta", methodDict := [("set_value", 4)], bridgeMethods := [],
          buttonSubscribers := [], subscribers := [] }
        ["set_value", "lutron", "kitchen_lights"] "set_value"
        (PyVal.pyList [PyVal.pyInt 75, PyVal.pyInt 2])
      = .error .typeError := rfl

/-- C3 amended: device-target resolution passes the whole of `raw_args` to the
registry lookup.  With at most one raw argument the leading element (or
`None`) is the designator and, when no registered button or device carries the
target name, the lookup yields `(none, false)` (with a logged warning) and
resolution proceeds without a device-scoped argument; with two or more raw
arguments the lookup call itself raises `TypeError`. -/
theorem c3_theorem (env : Env) (dn : String) (args : List PyVal)
    (hdn : dn ≠ "")
    (hb : ∀ p ∈ env.buttonSubscribers, p.2.name ≠ dn)
    (hd : ∀ p ∈ env.subscribers, p.2.name ≠ dn) :
    (args.length ≤ 1 →
      device_id_from_name_call env (some dn) args = .ok (none, false))
    ∧ (2 ≤ args.length →
      device_id_from_name_call env (some dn) args = .error .typeError) := by
  have hne : (dn == "") = false := by
    simp only [beq_eq_false_iff_ne, ne_eq]; exact hdn
  have hfind : env.subscribers.find? (fun p => dn == p.2.name) = none := by
    refine List.find?_eq_none.mpr (fun p hp => ?_)
    have := hd p hp
    simp only [beq_eq_false_iff_ne, ne_eq, Bool.not_eq_true]
    exact fun e => this e.symm
  have hone : ∀ bn : PyVal,
      device_id_from_name env (some dn) bn = .ok (none, false) := by
    intro bn
    simp only [device_id_from_name, hne, Bool.false_eq_true, if_false]
    rw [findButtonId_of_no_name env.buttonSubscribers dn bn hb]
    simp only [hfind]
    rfl
  constructor
  · intro hlen
    match args with
    | [] => exact hone PyVal.pyNone
    | [a] => exact hone a
    | a :: b :: rest => simp at hlen
  · intro hlen
    match args with
    | [] => simp at hlen
    | [a] => simp at hlen
    | a :: b :: rest => rfl

/-- Witness for C3 (amended): empty registries, target `kitchen_lights`, one
raw argument. -/
theorem c3_witness :
    (("kitchen_lights" : String) ≠ "")
    ∧ (([(PyVal.pyInt 75)] : List PyVal).length ≤ 1 →
        device_id_from_name_call
          { name := "caseta", methodDict := [("set_value", 4)],
            bridgeMethods := [], buttonSubscribers := [], subscribers := [] }
          (some "kitchen_lights") [PyVal.pyInt 75] = .ok (none, false))
    ∧ (2 ≤ ([(PyVal.pyInt 75)] : List PyVal).length →
        device_id_from_name_call
          { name := "caseta", methodDict := [("set_value", 4)],
            bridgeMethods := [], buttonSubscribers := [], subscribers := [] }
          (some "kitchen_lights") [PyVal.pyInt 75] = .error .typeError) := by
  have h := c3_theorem
    { name := "caseta", methodDict := [("set_value", 4)], bridgeMethods := [],
      buttonSubscribers := [], subscribers := [] }
    "kitchen_lights" [PyVal.pyInt 75] (by decide) (by simp) (by simp)
  exact ⟨by decide, h.1, h.2⟩

/-- C7: for every resolved command (the dispatch-table lookup succeeded with
declared parameter count `m`), the final argument list is the assembled list
truncated to `m` elements: its length is at most `m`, and only trailing
arguments are dropped — the assembled list is the final list followed by the
dropped rest, so no reordering occurs. -/
theorem c7_theorem (env : Env) (segs : List String) (command : String)
    (args0 : PyVal) (m : Nat) (c : String) (asm : List PyVal) (n : Nat)
    (hc : command ≠ "")
    (hl : lookupArity env.methodDict command = some m)
    (hcore : get_command_core env segs command args0 = .ok (c, asm, n)) :
    n = m
    ∧ get_command env segs command args0 = .ok (c, asm.take n)
    ∧ (asm.take n).length ≤ m
    ∧ asm.take n ++ asm.drop n = asm := by
  have hnm : n = m := by
    unfold get_command_core at hcore
    split at hcore
    · exact absurd hcore (by simp)
    · split at hcore
      · exact absurd hcore (by simp)
      · next nparams hnpeq =>
          have hnp : nparamsOf env command (wrapArgs args0) = .ok m := by
            unfold nparamsOf
            rw [if_pos hc, hl]
          rw [hnpeq] at hnp
          simp only [Except.ok.injEq] at hnp
          split at hcore
          · exact absurd hcore (by simp)
          · simp only [Except.ok.injEq, Prod.mk.injEq] at hcore
            rw [← hnp]
            exact hcore.2.2.symm
  subst hnm
  exact ⟨rfl, by simp [get_command, hcore, Except.map],
         List.length_take_le _ _, List.take_append_drop _ _⟩

/-- Witness for C7: `set_value` (declared arity 4 with the bound `self`) on
topic `set_value/lutron/kitchen_lights` with no registered devices. -/
theorem c7_witness :
    get_command_core
        { name := "caseta", methodDict := [("set_value", 4)], bridgeMethods := [],
          buttonSubscribers := [], subscribers := [] }
        ["set_value", "lutron", "kitchen_lights"] "set_value" (PyVal.pyStr "75")
      = .ok ("set_value", [PyVal.pyStr "75"], 4)
    ∧ get_command
        { name := "caseta", methodDict := [("set_value", 4)], bridgeMethods := [],
          buttonSubscribers := [], subscribers := [] }
        ["set_value", "lutron", "kitchen_lights"] "set_value" (PyVal.pyStr "75")
      = .ok ("set_value", [PyVal.pyStr "75"].take 4)
    ∧ ([PyVal.pyStr "75"].take 4).length ≤ 4 := by
  have h := c7_theorem
    { name := "caseta", methodDict := [("set_value", 4)], bridgeMethods := [],
      buttonSubscribers := [], subscribers := [] }
    ["set_value", "lutron", "kitchen_lights"] "set_value" (PyVal.pyStr "75")
    4 "set_value" [PyVal.pyStr "75"] 4 (by decide) rfl rfl
  exact ⟨rfl, h.2.1, h.2.2.1⟩

/-- C9: resolution is deterministic and mutation-free: running `_get_command`
on the same message twice in sequence, the second run starting from the
registry state the first run returned, yields the identical
`(command_name, final_args)` both times. -/
theorem c9_theorem (env : Env) (segs : List String) (command : String)
    (args0 : PyVal) (env₁ env₂ : Env) (c₁ c₂ : String) (a₁ a₂ : List PyVal)
    (h1 : get_commandS env segs command args0 = .ok (env₁, c₁, a₁))
    (h2 : get_commandS env₁ segs command args0 = .ok (env₂, c₂, a₂)) :
    c₁ = c₂ ∧ a₁ = a₂ := by
  have he : env₁ = env := get_commandS_env_eq env env₁ segs command args0 c₁ a₁ h1
  rw [he, h1] at h2
  simp only [Except.ok.injEq, Prod.mk.injEq] at h2
  exact ⟨h2.2.1, h2.2.2⟩

/-- Witness for C9: the `status` command resolved twice in sequence gives the
same pair. -/
theorem c9_witness :
    get_commandS
        { name := "caseta", methodDict := [("status", 1)], bridgeMethods := [],
          buttonSubscribers := [], subscribers := [] }
        ["status", "lutron", "caseta"] "status" PyVal.pyNone
      = .ok ({ name := "caseta", methodDict := [("status", 1)],
               bridgeMethods := [], buttonSubscribers := [], subscribers := [] },
             "status", [])
    ∧ ("status" : String) = "status" ∧ ([] : List PyVal) = [] :=
  ⟨rfl,
   c9_theorem
    { name := "caseta", methodDict := [("status", 1)], bridgeMethods := [],
      buttonSubscribers := [], subscribers := [] }
    ["status", "lutron", "caseta"] "status" PyVal.pyNone
    _ _ "status" "status" [] [] rfl rfl⟩

/-- C4: processing a press notification at time `t` emits a `.../double` event
at `t` iff the elapsed time since the previous press start (`self.start`,
reset at every press) is at most the double-click window, the 0.5s boundary
included (`<=` in line 221); otherwise the double publishes are unchanged.
This holds for an arbitrary machine state, in particular at the second of any
pair of consecutive presses, where `start` is the first press's start. -/
theorem c4_theorem (s : BState) (t : ℚ) :
    doubleTimes (processEvent s (t, true))
      = (if t - s.start ≤ double_click_time then [t] else []) ++ doubleTimes s := by
  unfold processEvent
  rw [← fireDue_start t s, ← fireDue_doubles t s]
  generalize fireDue t s = s₁
  obtain ⟨st, tk, tm, ni, pr, pb⟩ := s₁
  simp only [notify, timing]
  by_cases hcond : t - st ≤ double_click_time <;>
    simp [hcond, doubleTimes, doublesOf_long_press]

/-- C6: the timer invariant — in particular, at most one pending (armed, not
yet fired, not cancelled) long-press timer per button — is preserved by every
processed external notification, including the due timer firing that precedes
it. -/
theorem c6_theorem (s : BState) (e : ℚ × Bool) (h : TimerInv s) :
    TimerInv (processEvent s e) ∧ pendingCount (processEvent s e) ≤ 1 := by
  have h2 : TimerInv (notify e.1 e.2 (fireDue e.1 s)) :=
    timerInv_notify e.1 e.2 _ (timerInv_fireDue e.1 s h)
  exact ⟨h2, pendingCount_le_one _ h2⟩

/-- Witness for C6: the freshly constructed button (no task, empty timer
store) pressed at time 0. -/
theorem c6_witness :
    TimerInv { start := 0, task := none, timers := [], nextId := 0,
               pressed := false, pubs := [] }
    ∧ (TimerInv (processEvent
          { start := 0, task := none, timers := [], nextId := 0,
            pressed := false, pubs := [] } (0, true))
       ∧ pendingCount (processEvent
          { start := 0, task := none, timers := [], nextId := 0,
            pressed := false, pubs := [] } (0, true)) ≤ 1) := by
  have hinv : TimerInv
      { start := (0 : ℚ), task := none, timers := [], nextId := 0,
        pressed := false, pubs := [] } := by
    refine ⟨?_, ?_, ?_⟩ <;> simp
  exact ⟨hinv, c6_theorem _ (0, true) hinv⟩

/-- C5: on any alternating press/release cycle of one button started from a
quiescent state — a press at `t0` followed by a release at `t1` and any number
of repeated release notifications — exactly one long-press event is emitted
(at the armed deadline `t0 + 1.0`) when the press is held at least the 1.0s
long-press window (`t0 + 1.0 ≤ t1`, boundary inclusive since the timer fires
when its deadline is reached), and zero long-press events are emitted when the
button is released earlier, no matter how often the release is repeated. -/
theorem c5_theorem (s : BState) (t0 t1 : ℚ) (rs : List ℚ) (h : Quiescent s) :
    longOnTimes (runTrace s
        ((t0, true) :: (t1, false) :: rs.map (fun r => (r, false))))
      = (if t0 + long_press_time ≤ t1 then [t0 + long_press_time] else [])
        ++ longOnTimes s := by
  have hpr := press_release s h t0 t1
  have hrr := run_releases rs _ hpr.2
  simp only [runTrace, List.foldl_cons] at hpr hrr ⊢
  rw [hrr.1, hpr.1]

/-- Witness for C5: press at 0, release at 2 (held 2s ≥ 1s), release repeated
at 3, from the freshly constructed button. -/
theorem c5_witness :
    Quiescent { start := 0, task := none, timers := [], nextId := 0,
                pressed := false, pubs := [] }
    ∧ longOnTimes (runTrace
        { start := 0, task := none, timers := [], nextId := 0,
          pressed := false, pubs := [] }
        [((0 : ℚ), true), (2, false), (3, false)])
      = (if (0 : ℚ) + long_press_time ≤ 2 then [(0 : ℚ) + long_press_time] else [])
        ++ longOnTimes
            { start := 0, task := none, timers := [], nextId := 0,
              pressed := false, pubs := [] } := by
  have hq : Quiescent
      { start := (0 : ℚ), task := none, timers := [], nextId := 0,
        pressed := false, pubs := [] } := by
    refine ⟨rfl, ?_, ?_⟩ <;> simp
  exact ⟨hq, c5_theorem _ 0 2 [3] hq⟩

end Lutron
